import Mathlib

/-!
Verification of the image-enhancement pipeline of this repository against its
specification.  The repository contains two variants of the same Streamlit
application:

* `image_enhance.py`   — the OpenCV/scipy variant (called `orig` below);
* `fixed_image_enhance.py` — the PIL-only variant (called `fixed` below).

Both define a class `ImageEnhancer` with methods `enhance_image`,
`upscale_image`, `apply_noise_reduction`, `get_image_stats` (and, in the
orig variant, `apply_sharpening`).  The definitions below are a shallow
embedding of those methods.

Modelling conventions:
* A bitmap is a row-major grid of pixels; a pixel is a list of 8-bit channel
  samples (one entry for mode `L`, three for `RGB`).  Machine `uint8` values
  are modelled as `Nat` (all operations below clamp into `[0, 255]` before
  storing, exactly where the Python code does).
* Python floats are modelled as exact rationals `ℚ`.  Every claim settled
  below evaluates the float expressions only at inputs where IEEE-754 double
  (and the float32 used inside PIL) arithmetic is exact, so the rational
  model agrees with the code.
* Calls into third-party native libraries whose numeric kernels are not part
  of this repository (cv2.resize, cv2.bilateralFilter,
  cv2.fastNlMeansDenoising*, scipy.ndimage.gaussian_filter,
  PIL GaussianBlur / SMOOTH_MORE) are modelled as fields of an `Externals`
  record: the repository's code is verified for every behaviour of these
  fields, with their documented contracts (e.g. cv2.resize returns an image
  of the requested size) taken as hypotheses where a claim needs them.
  Each such call returns `Except String Bitmap`, modelling the fact that a
  Python library call may raise; the repository code contains no
  `try/except`, so the embedding propagates errors exactly as Python does.
* The PIL operations whose exact per-pixel semantics the claims depend on
  (`ImageEnhance.Brightness/Contrast/Color/Sharpness`, the `SMOOTH` 3×3
  kernel, the `L` luma conversion) are embedded concretely from Pillow's
  implementation: `Image.blend` computes `in1 + alpha*(in2-in1)` per sample
  and clamps to `[0,255]` with truncation toward zero; `convert("L")` uses
  `(r*19595 + g*38470 + b*7471 + 32768) >> 16`; `ImageEnhance.Contrast`
  pivots on `int(mean_of_L + 0.5)`; the `SMOOTH` filter is the 3×3 kernel
  `(1,1,1,1,5,1,1,1,1)/13` with border pixels copied unchanged.
-/

deriving instance DecidableEq for Except

section

attribute [local semireducible] Rat.mul Rat.add Rat.sub Rat.inv

/-- A pixel: the list of its 8-bit channel samples (`[v]` for grayscale,
`[r, g, b]` for RGB). -/
abbrev Pixel := List ℕ

/-- A bitmap: rows of pixels, row-major, as produced by `np.array(image)`. -/
structure Bitmap where
  rows : List (List Pixel)
deriving DecidableEq

/-- `image.height` / `img_array.shape[0]`. -/
def Bitmap.height (b : Bitmap) : ℕ := b.rows.length

/-- `image.width` / `img_array.shape[1]`. -/
def Bitmap.width (b : Bitmap) : ℕ := (b.rows.headD []).length

/-- The number of channel samples per pixel (1 for mode `L`, 3 for `RGB`). -/
def Bitmap.channels (b : Bitmap) : ℕ := ((b.rows.headD []).headD []).length

/-- All channel samples of the bitmap combined, row-major
(`img_array` flattened, as `np.mean` / `np.std` consume it). -/
def Bitmap.samples (b : Bitmap) : List ℕ := b.rows.flatten.flatten

/-- A float-valued image (`img_array.astype(float)`), same layout. -/
abbrev QImg := List (List (List ℚ))

/-- `img_array.astype(float)`. -/
def toQImg (b : Bitmap) : QImg :=
  b.rows.map (fun row => row.map (fun p => p.map (fun (v : ℕ) => (v : ℚ))))

/-- Clamp a real-valued sample into `[0, 255]` and truncate to an integer,
as both `np.clip(..., 0, 255)` followed by `astype('uint8')` and PIL's
`clip8` (`temp <= 0 → 0`, `temp >= 255 → 255`, else C truncation) do. -/
def clipTrunc (t : ℚ) : ℕ :=
  if t ≤ 0 then 0 else if 255 ≤ t then 255 else (⌊t⌋).toNat

/-- `astype('uint8')` applied to a float image whose values already lie in
`[0, 255]` (Gaussian filtering of `uint8` data): truncation toward zero. -/
def qImgToU8 (q : QImg) : Bitmap :=
  ⟨q.map (fun row => row.map (fun p => p.map (fun v => (⌊v⌋).toNat)))⟩

/-- One sample of `Image.blend(im1, im2, alpha)`:
`temp = in1 + alpha*(in2 - in1)`, clamped to `[0,255]` with truncation. -/
def blendVal (a b alpha : ℚ) : ℕ := clipTrunc (a + alpha * (b - a))

/-- PIL `convert("L")` luma of one pixel:
`(r*19595 + g*38470 + b*7471 + 0x8000) >> 16`; the identity on a
single-channel pixel. -/
def pxLuma (p : Pixel) : ℕ :=
  match p with
  | [v] => v
  | [r, g, b] => (r * 19595 + g * 38470 + b * 7471 + 32768) / 65536
  | _ => 0

/-- `ImageStat.Stat(image.convert("L")).mean[0]`: the exact rational mean of
the per-pixel lumas. -/
def lumaMean (b : Bitmap) : ℚ :=
  let ls := b.rows.flatten.map pxLuma
  ((ls.map (fun (v : ℕ) => (v : ℚ))).sum) / ls.length

/-- The pivot of `ImageEnhance.Contrast`: `int(mean + 0.5)` of the luma
mean. -/
def contrastPivot (b : Bitmap) : ℕ := (⌊lumaMean b + 1 / 2⌋).toNat

/-- Apply a per-pixel channel map to every pixel. -/
def mapSamples (b : Bitmap) (f : Pixel → ℕ → ℕ) : Bitmap :=
  ⟨b.rows.map (fun row => row.map (fun p => p.map (f p)))⟩

/-- `ImageEnhance.Brightness(image).enhance(factor)`: blend from a black
degenerate image, i.e. each sample becomes `clip(trunc(factor * v))`. -/
def pilBrightness (b : Bitmap) (f : ℚ) : Bitmap :=
  mapSamples b (fun _ v => blendVal 0 (v : ℚ) f)

/-- `ImageEnhance.Contrast(image).enhance(factor)`: blend from a uniform
gray degenerate image at the rounded luma mean `m`:
each sample becomes `clip(trunc(m + factor * (v - m)))`. -/
def pilContrast (b : Bitmap) (f : ℚ) : Bitmap :=
  let m := contrastPivot b
  mapSamples b (fun _ v => blendVal (m : ℚ) (v : ℚ) f)

/-- `ImageEnhance.Color(image).enhance(factor)`: blend from the per-pixel
grayscale (luma) degenerate image. -/
def pilColor (b : Bitmap) (f : ℚ) : Bitmap :=
  mapSamples b (fun p v => blendVal ((pxLuma p : ℕ) : ℚ) (v : ℚ) f)

/-- Sample at `(r, c, ch)` with 0 outside the grid (used only inside the
interior where every access is in range). -/
def getV (b : Bitmap) (r c ch : ℕ) : ℕ :=
  (((b.rows.getD r []).getD c []).getD ch 0)

/-- Pixel at `(r, c)`. -/
def getPx (b : Bitmap) (r c : ℕ) : Pixel := (b.rows.getD r []).getD c []

/-- One interior sample of PIL's `SMOOTH` filter: the 3×3 kernel
`(1,1,1, 1,5,1, 1,1,1)` with divisor 13, clamped with truncation
(Pillow's `clip8`). -/
def conv3At (b : Bitmap) (r c ch : ℕ) : ℕ :=
  let v := fun (dr dc : ℕ) => ((getV b (r + dr - 1) (c + dc - 1) ch : ℕ) : ℚ)
  clipTrunc ((v 0 0 + v 0 1 + v 0 2 + v 1 0 + 5 * v 1 1 + v 1 2 +
              v 2 0 + v 2 1 + v 2 2) / 13)

/-- `image.filter(ImageFilter.SMOOTH)`: interior pixels are convolved with
the 3×3 smoothing kernel; border pixels are copied unchanged. -/
def smoothFilter (b : Bitmap) : Bitmap :=
  ⟨(List.range b.height).map (fun r => (List.range b.width).map (fun c =>
    if 1 ≤ r ∧ r + 1 < b.height ∧ 1 ≤ c ∧ c + 1 < b.width then
      (List.range (getPx b r c).length).map (fun ch => conv3At b r c ch)
    else getPx b r c))⟩

/-- `Image.blend(d, b, alpha)` of two same-shaped bitmaps, per sample. -/
def blend2 (d b : Bitmap) (alpha : ℚ) : Bitmap :=
  ⟨(d.rows.zip b.rows).map (fun rp => (rp.1.zip rp.2).map (fun pp =>
    (pp.1.zip pp.2).map (fun vv => blendVal (vv.1 : ℚ) (vv.2 : ℚ) alpha)))⟩

/-- `ImageEnhance.Sharpness(image).enhance(factor)`: blend from the
`SMOOTH`-filtered degenerate copy. -/
def pilSharpness (b : Bitmap) (f : ℚ) : Bitmap := blend2 (smoothFilter b) b f

/-- The `cv2` interpolation kernels appearing in `interpolation_map` of
`image_enhance.py`. -/
inductive CvInterp
  | nearest | linear | cubic | lanczos4
deriving DecidableEq

/-- The PIL resampling kernels appearing in `interpolation_map` of
`fixed_image_enhance.py`. -/
inductive PilInterp
  | nearest | bilinear | bicubic | lanczos
deriving DecidableEq

/-- `interpolation_map` of `image_enhance.py` as a partial lookup
(the Python `dict` before `.get`). -/
def interpolationMapOrig (m : String) : Option CvInterp :=
  if m = "Bicubic" then some .cubic
  else if m = "Bilinear" then some .linear
  else if m = "Lanczos" then some .lanczos4
  else if m = "Nearest" then some .nearest
  else none

/-- `interpolation_map.get(interpolation_method, cv2.INTER_CUBIC)`. -/
def resolveInterpOrig (m : String) : CvInterp :=
  (interpolationMapOrig m).getD .cubic

/-- `interpolation_map` of `fixed_image_enhance.py`. -/
def interpolationMapFixed (m : String) : Option PilInterp :=
  if m = "Bicubic" then some .bicubic
  else if m = "Bilinear" then some .bilinear
  else if m = "Lanczos" then some .lanczos
  else if m = "Nearest" then some .nearest
  else none

/-- `interpolation_map.get(interpolation_method, Image.BICUBIC)`. -/
def resolveInterpFixed (m : String) : PilInterp :=
  (interpolationMapFixed m).getD .bicubic

/-- The third-party library calls made by the repository.  Each field is a
black box over which the repository's own code is verified; `Except`
models a Python call that may raise. -/
structure Externals where
  cv2Resize : Bitmap → ℕ → ℕ → CvInterp → Except String Bitmap
  pilResize : Bitmap → ℕ → ℕ → PilInterp → Except String Bitmap
  scipyGaussian : QImg → ℚ → Except String QImg
  cv2Bilateral : Bitmap → ℕ → ℕ → ℕ → Except String Bitmap
  nlMeansColored : Bitmap → ℕ → ℕ → ℕ → ℕ → Except String Bitmap
  nlMeansGray : Bitmap → ℕ → ℕ → ℕ → Except String Bitmap
  pilGaussianBlur : Bitmap → ℚ → Except String Bitmap
  pilSmoothMore : Bitmap → Except String Bitmap

/-- The `settings` dictionary built by the UI and consumed by
`enhance_image`. -/
structure Settings where
  scale_factor : ℚ
  interpolation : String
  brightness : ℚ
  contrast : ℚ
  saturation : ℚ
  sharpness : ℚ
  noise_reduction : ℚ

/-- The identity parameter set of §3 of the spec: `scale_factor = 1.0`,
all multipliers `1.0`, `noise_reduction = 0.0` (with the UI's default
interpolation name). -/
def idSettings : Settings :=
  ⟨1, "Bicubic", 1, 1, 1, 1, 0⟩

/-- Python `int()` applied to a nonnegative float: truncation (for the
nonnegative arguments arising here this is the floor; on a negative
argument the real sizes are invalid and resize fails regardless). -/
def pyInt (q : ℚ) : ℕ := q.num.toNat / q.den

/-- On nonnegative rationals, `pyInt` is the floor. -/
theorem pyInt_eq_floor_toNat (q : ℚ) (h : 0 ≤ q) :
    pyInt q = (⌊q⌋).toNat := by
  have hnum : 0 ≤ q.num := Rat.num_nonneg.mpr h
  have key : ∀ (a : ℤ) (b : ℕ), 0 ≤ a → a.toNat / b = (a / (b : ℤ)).toNat := by
    intro a b ha
    obtain ⟨n, rfl⟩ := Int.eq_ofNat_of_zero_le ha
    norm_cast
  unfold pyInt
  rw [Rat.floor_def]
  exact key _ _ hnum

/-- `ImageEnhancer.upscale_image` of `image_enhance.py`:
`new_height = int(height*scale)`, `new_width = int(width*scale)`, then
`cv2.resize(img_array, (new_width, new_height), interpolation)` (both
branches of the channel test issue the identical call). -/
def origUpscale (E : Externals) (b : Bitmap) (s : ℚ) (m : String) :
    Except String Bitmap :=
  let nh := pyInt ((b.height : ℚ) * s)
  let nw := pyInt ((b.width : ℚ) * s)
  E.cv2Resize b nw nh (resolveInterpOrig m)

/-- `ImageEnhancer.upscale_image` of `fixed_image_enhance.py`:
`image.resize((int(width*scale), int(height*scale)), interpolation)`. -/
def fixedUpscale (E : Externals) (b : Bitmap) (s : ℚ) (m : String) :
    Except String Bitmap :=
  let nw := pyInt ((b.width : ℚ) * s)
  let nh := pyInt ((b.height : ℚ) * s)
  E.pilResize b nw nh (resolveInterpFixed m)

/-- The unsharp-mask combination of `apply_sharpening`:
`np.clip(img + (factor - 1.0) * (img - blurred), 0, 255).astype('uint8')`,
with `blurred` the float-valued Gaussian blur. -/
def unsharpCombine (b : Bitmap) (bl : QImg) (s : ℚ) : Bitmap :=
  ⟨(b.rows.zip bl).map (fun rp => (rp.1.zip rp.2).map (fun pp =>
    (pp.1.zip pp.2).map (fun vv =>
      clipTrunc ((vv.1 : ℚ) + (s - 1) * ((vv.1 : ℚ) - vv.2)))))⟩

/-- `ImageEnhancer.apply_sharpening` of `image_enhance.py`:
`blurred = ndimage.gaussian_filter(img.astype(float), sigma=1.0)`, then the
unsharp-mask combination. -/
def applySharpening (E : Externals) (b : Bitmap) (s : ℚ) :
    Except String Bitmap :=
  match E.scipyGaussian (toQImg b) 1 with
  | .error e => .error e
  | .ok bl => .ok (unsharpCombine b bl s)

/-- `ImageEnhancer.apply_noise_reduction` of `image_enhance.py`:
`factor <= 0.3` → Gaussian blur with `sigma = factor * 2` (float, then
`astype('uint8')`); `factor <= 0.6` → `cv2.bilateralFilter(img, 9, 75, 75)`
(both channel branches identical); otherwise non-local means with the fixed
arguments `10, 10, 7, 21` (colored) or `10, 7, 21` (grayscale). -/
def applyNoiseReductionOrig (E : Externals) (b : Bitmap) (f : ℚ) :
    Except String Bitmap :=
  if f ≤ 3 / 10 then
    match E.scipyGaussian (toQImg b) (f * 2) with
    | .error e => .error e
    | .ok q => .ok (qImgToU8 q)
  else if f ≤ 6 / 10 then
    E.cv2Bilateral b 9 75 75
  else if b.channels = 3 then
    E.nlMeansColored b 10 10 7 21
  else
    E.nlMeansGray b 10 7 21

/-- `ImageEnhancer.apply_noise_reduction` of `fixed_image_enhance.py`:
`factor <= 0.3` → `GaussianBlur(radius = factor * 2)`;
`factor <= 0.6` → `SMOOTH_MORE`; otherwise `SMOOTH_MORE` followed by
`GaussianBlur(radius = (factor - 0.6) * 3)`. -/
def applyNoiseReductionFixed (E : Externals) (b : Bitmap) (f : ℚ) :
    Except String Bitmap :=
  if f ≤ 3 / 10 then
    E.pilGaussianBlur b (f * 2)
  else if f ≤ 6 / 10 then
    E.pilSmoothMore b
  else
    match E.pilSmoothMore b with
    | .error e => .error e
    | .ok sm => E.pilGaussianBlur sm ((f - 6 / 10) * 3)

/-- `ImageEnhancer.enhance_image` of `image_enhance.py`: upscale if
`scale_factor != 1.0`, then brightness / contrast / saturation each if its
factor `!= 1.0`, sharpening if `sharpness > 1.0`, noise reduction if
`noise_reduction > 0`. -/
def origEnhance (E : Externals) (s : Settings) (img : Bitmap) :
    Except String Bitmap :=
  match (if s.scale_factor ≠ 1 then
           origUpscale E img s.scale_factor s.interpolation
         else .ok img) with
  | .error e => .error e
  | .ok i1 =>
    let i2 := if s.brightness ≠ 1 then pilBrightness i1 s.brightness else i1
    let i3 := if s.contrast ≠ 1 then pilContrast i2 s.contrast else i2
    let i4 := if s.saturation ≠ 1 then pilColor i3 s.saturation else i3
    match (if s.sharpness > 1 then applySharpening E i4 s.sharpness
           else .ok i4) with
    | .error e => .error e
    | .ok i5 =>
      if s.noise_reduction > 0 then applyNoiseReductionOrig E i5 s.noise_reduction
      else .ok i5

/-- `ImageEnhancer.enhance_image` of `fixed_image_enhance.py`: same chain,
except that sharpening uses `ImageEnhance.Sharpness` and is guarded by
`sharpness != 1.0` rather than `sharpness > 1.0`. -/
def fixedEnhance (E : Externals) (s : Settings) (img : Bitmap) :
    Except String Bitmap :=
  match (if s.scale_factor ≠ 1 then
           fixedUpscale E img s.scale_factor s.interpolation
         else .ok img) with
  | .error e => .error e
  | .ok i1 =>
    let i2 := if s.brightness ≠ 1 then pilBrightness i1 s.brightness else i1
    let i3 := if s.contrast ≠ 1 then pilContrast i2 s.contrast else i2
    let i4 := if s.saturation ≠ 1 then pilColor i3 s.saturation else i3
    let i5 := if s.sharpness ≠ 1 then pilSharpness i4 s.sharpness else i4
    if s.noise_reduction > 0 then applyNoiseReductionFixed E i5 s.noise_reduction
    else .ok i5

/-- `np.mean(img_array)`: mean over all channel samples combined. -/
def mean_brightness (b : Bitmap) : ℚ :=
  ((b.samples.map (fun (v : ℕ) => (v : ℚ))).sum) / b.samples.length

/-- The square of `np.std(img_array)`: the population variance over all
channel samples combined.  `std_brightness = √var_brightness`, so
`std_brightness = 0` exactly when `var_brightness = 0`. -/
def var_brightness (b : Bitmap) : ℚ :=
  ((b.samples.map (fun (v : ℕ) => ((v : ℚ) - mean_brightness b) ^ 2)).sum) /
    b.samples.length

/-- `len(np.array(image).shape)`: 2 for a single-channel (mode `L`) image,
3 for RGB. -/
def arrayRank (b : Bitmap) : ℕ := if b.channels = 1 then 2 else 3

/-- The `channels` field of `get_image_stats` in `image_enhance.py`:
`len(img_array.shape)`. -/
def statsChannelsOrig (b : Bitmap) : ℕ := arrayRank b

/-- The `channels` field of `get_image_stats` in `fixed_image_enhance.py`:
`len(img_array.shape) if len(img_array.shape) > 2 else 1`. -/
def statsChannelsFixed (b : Bitmap) : ℕ :=
  if arrayRank b > 2 then arrayRank b else 1

/-- A uniform bitmap: `h` rows of `w` copies of pixel `p`. -/
def uniformBitmap (h w : ℕ) (p : Pixel) : Bitmap :=
  ⟨List.replicate h (List.replicate w p)⟩

/-- An all-zero RGB bitmap of the given size. -/
def zeroBitmap (h w c : ℕ) : Bitmap :=
  uniformBitmap h w (List.replicate c 0)

/-- A concrete, well-behaved instance of `Externals`: every call succeeds,
resizes return an image of the requested dimensions (failing, as the real
libraries do, on a zero target size), filters return their input. -/
def zeroExt : Externals where
  cv2Resize := fun _ nw nh _ =>
    if nw = 0 ∨ nh = 0 then .error "resize" else .ok (zeroBitmap nh nw 3)
  pilResize := fun _ nw nh _ =>
    if nw = 0 ∨ nh = 0 then .error "resize" else .ok (zeroBitmap nh nw 3)
  scipyGaussian := fun q _ => .ok q
  cv2Bilateral := fun b _ _ _ => .ok b
  nlMeansColored := fun b _ _ _ _ => .ok b
  nlMeansGray := fun b _ _ _ => .ok b
  pilGaussianBlur := fun b _ => .ok b
  pilSmoothMore := fun b => .ok b

/-- Numeric tag of a `cv2` kernel (for recording which kernel was chosen). -/
def kernelCodeCv : CvInterp → ℕ
  | .nearest => 0 | .linear => 1 | .cubic => 2 | .lanczos4 => 3

/-- An `Externals` instance whose resize records its arguments (target
width, target height, chosen kernel) in the returned bitmap, making the
kernel actually passed to `cv2.resize` observable. -/
def recExt : Externals :=
  { zeroExt with
    cv2Resize := fun _ nw nh k => .ok ⟨[[[nw, nh, kernelCodeCv k]]]⟩ }

/-- An `Externals` instance whose non-local-means denoiser records the
strength arguments it receives in the returned bitmap. -/
def hRecExt : Externals :=
  { zeroExt with
    nlMeansColored := fun _ h hc t s => .ok ⟨[[[h, hc, t, s]]]⟩
    nlMeansGray := fun _ h t s => .ok ⟨[[[h, t, s]]]⟩ }

/-- An `Externals` instance whose non-local-means denoiser is unavailable:
the heavy-band library call raises. -/
def failExt : Externals :=
  { zeroExt with
    nlMeansColored := fun _ _ _ _ _ => .error "nlm"
    nlMeansGray := fun _ _ _ _ => .error "nlm" }

/-- Modelled from the spec: the contrast formula the specification states,
`out = clip(128 + (in - 128) * factor, 0, 255)`, pivoting on the fixed
neutral gray 128.  Declared only to be compared against the code's
`pilContrast`. -/
def specContrastVal (v : ℕ) (f : ℚ) : ℕ :=
  clipTrunc (128 + ((v : ℚ) - 128) * f)

/-- C1.  Identity pipeline: with the identity defaults (`scale_factor = 1`,
`brightness = contrast = saturation = sharpness = 1`,
`noise_reduction = 0`, any interpolation name), both variants'
`enhance_image` skip every stage and return the input bitmap
byte-identical, for every behaviour of the external libraries. -/
theorem C1_identity_pipeline (E : Externals) (m : String) (b : Bitmap) :
    origEnhance E { idSettings with interpolation := m } b = .ok b ∧
    fixedEnhance E { idSettings with interpolation := m } b = .ok b := by
  constructor <;> simp [origEnhance, fixedEnhance, idSettings]

/-- C10.  Stats channels field: for an RGB bitmap both variants report
`channels = 3`; for a single-channel bitmap `image_enhance.py` reports the
array rank 2 while `fixed_image_enhance.py` reports 1, so the orig field is
never the actual channel count (1) of a grayscale bitmap. -/
theorem C10_channels_field (b : Bitmap) :
    (b.channels = 3 → statsChannelsOrig b = 3 ∧ statsChannelsFixed b = 3) ∧
    (b.channels = 1 → statsChannelsOrig b = 2 ∧ statsChannelsFixed b = 1 ∧
      statsChannelsOrig b ≠ 1) := by
  unfold statsChannelsOrig statsChannelsFixed arrayRank
  constructor <;> intro h <;> simp [h]

/-- Witness for C10 on a concrete 2×2 grayscale and a 2×2 RGB bitmap. -/
theorem C10_witness :
    (statsChannelsOrig (uniformBitmap 2 2 [9]) = 2 ∧
     statsChannelsFixed (uniformBitmap 2 2 [9]) = 1 ∧
     statsChannelsOrig (uniformBitmap 2 2 [9]) ≠ 1) ∧
    (statsChannelsOrig (uniformBitmap 2 2 [9, 9, 9]) = 3 ∧
     statsChannelsFixed (uniformBitmap 2 2 [9, 9, 9]) = 3) :=
  ⟨(C10_channels_field _).2 (by decide), (C10_channels_field _).1 (by decide)⟩

/-- C9.  Stats on a uniform bitmap: if every channel sample (all channels
combined, which is how `np.mean`/`np.std` consume the array) equals `v`,
then `mean_brightness = v` and the variance — hence also
`std_brightness = √variance` — is zero. -/
theorem C9_stats_uniform (b : Bitmap) (v : ℕ) (hne : b.samples ≠ [])
    (hall : ∀ x ∈ b.samples, x = v) :
    mean_brightness b = v ∧ var_brightness b = 0 ∧
    (∀ s : ℚ, s * s = var_brightness b → s = 0) := by
  obtain ⟨n, hrep⟩ : ∃ n, b.samples = List.replicate n v :=
    ⟨b.samples.length, List.eq_replicate_of_mem hall⟩
  have hn : 0 < n := by
    rcases Nat.eq_zero_or_pos n with h0 | h
    · subst h0; simp at hrep; exact absurd hrep hne
    · exact h
  have hmean : mean_brightness b = v := by
    rw [mean_brightness, hrep]
    simp only [List.map_replicate, List.sum_replicate, List.length_replicate,
      nsmul_eq_mul]
    exact mul_div_cancel_left₀ _ (by exact_mod_cast hn.ne')
  have hvar : var_brightness b = 0 := by
    rw [var_brightness, hrep]
    simp only [hmean, List.map_replicate, List.sum_replicate,
      List.length_replicate, sub_self]
    norm_num
  refine ⟨hmean, hvar, ?_⟩
  intro s hs
  rw [hvar] at hs
  exact mul_self_eq_zero.mp hs

/-- Witness for C9 on a concrete uniform 2×3 RGB bitmap of value 7. -/
theorem C9_witness :
    mean_brightness (uniformBitmap 2 3 [7, 7, 7]) = 7 ∧
    var_brightness (uniformBitmap 2 3 [7, 7, 7]) = 0 ∧
    (∀ s : ℚ, s * s = var_brightness (uniformBitmap 2 3 [7, 7, 7]) → s = 0) :=
  C9_stats_uniform _ 7 (by decide) (by decide)

/-- Counterexample to C2 as stated: with `scale_factor = 5.0` (outside
`[1.0, 4.0]`) and the unrecognized interpolation name `"Frobnicate"`, the
orig pipeline raises nothing: both lookup tables miss, the bicubic kernel
is silently substituted (the recording externals show `cv2.resize` being
called with kernel code 2 = bicubic and the out-of-range target size
250×200), and a bitmap is produced. -/
theorem C2_counterexample :
    interpolationMapOrig "Frobnicate" = none ∧
    interpolationMapFixed "Frobnicate" = none ∧
    origEnhance recExt
      { idSettings with scale_factor := 5, interpolation := "Frobnicate" }
      (zeroBitmap 40 50 3) = .ok ⟨[[[250, 200, kernelCodeCv .cubic]]]⟩ := by
  refine ⟨by decide, by decide, by decide⟩

/-- C2 amended: the pipeline performs no parameter validation and defines
no `InvalidParameterError`; an interpolation name outside the four known
ones is silently mapped to the bicubic default in both variants, and an
out-of-range `scale_factor` is applied as given, the run succeeding. -/
theorem C2_no_validation :
    (∀ m : String, m ≠ "Bicubic" → m ≠ "Bilinear" → m ≠ "Lanczos" →
      m ≠ "Nearest" →
      resolveInterpOrig m = CvInterp.cubic ∧
      resolveInterpFixed m = PilInterp.bicubic) ∧
    origEnhance zeroExt { idSettings with scale_factor := 5 }
      (zeroBitmap 4 5 3) = .ok (zeroBitmap 20 25 3) := by
  constructor
  · intro m h1 h2 h3 h4
    constructor <;>
      simp [resolveInterpOrig, resolveInterpFixed, interpolationMapOrig,
        interpolationMapFixed, h1, h2, h3, h4]
  · decide

/-- Witness for C2's amended theorem at the concrete unknown name
`"Gaussian"`. -/
theorem C2_no_validation_witness :
    resolveInterpOrig "Gaussian" = CvInterp.cubic ∧
    resolveInterpFixed "Gaussian" = PilInterp.bicubic :=
  C2_no_validation.1 "Gaussian" (by decide) (by decide) (by decide)
    (by decide)

/-- The concrete resize of `zeroExt` honours cv2/PIL's documented contract:
a successful resize has exactly the requested dimensions. -/
theorem zeroExt_cv2Resize_dims (b' : Bitmap) (nw nh : ℕ) (k : CvInterp)
    (r : Bitmap) (h : zeroExt.cv2Resize b' nw nh k = .ok r) :
    r.width = nw ∧ r.height = nh := by
  simp only [zeroExt] at h
  split at h
  · exact absurd h (by simp)
  · rename_i hcond
    injection h with h
    subst h
    push_neg at hcond
    obtain ⟨-, hnh⟩ := hcond
    unfold Bitmap.width Bitmap.height zeroBitmap uniformBitmap
    cases nh with
    | zero => exact absurd rfl hnh
    | succ n => simp [List.replicate_succ]

/-- Same contract for the PIL resize of `zeroExt`. -/
theorem zeroExt_pilResize_dims (b' : Bitmap) (nw nh : ℕ) (k : PilInterp)
    (r : Bitmap) (h : zeroExt.pilResize b' nw nh k = .ok r) :
    r.width = nw ∧ r.height = nh := by
  simp only [zeroExt] at h
  split at h
  · exact absurd h (by simp)
  · rename_i hcond
    injection h with h
    subst h
    push_neg at hcond
    obtain ⟨-, hnh⟩ := hcond
    unfold Bitmap.width Bitmap.height zeroBitmap uniformBitmap
    cases nh with
    | zero => exact absurd rfl hnh
    | succ n => simp [List.replicate_succ]

/-- C3.  Dimension law: assuming the documented contract of the external
resize (the returned image has the requested size), both variants'
`upscale_image` produce `floor(width*s) × floor(height*s)` for any
`s ∈ [1, 4]` and any interpolation name; and the full orig pipeline on a
50×40 input with `scale_factor = 2` and Bicubic yields 100×80. -/
theorem C3_dimension_law (E : Externals) (b : Bitmap) (s : ℚ) (m : String)
    (hcv : ∀ b' nw nh k r, E.cv2Resize b' nw nh k = .ok r →
      r.width = nw ∧ r.height = nh)
    (hpil : ∀ b' nw nh k r, E.pilResize b' nw nh k = .ok r →
      r.width = nw ∧ r.height = nh)
    (h1 : 1 ≤ s) (h4 : s ≤ 4) :
    (∀ r, origUpscale E b s m = .ok r →
      r.width = (⌊(b.width : ℚ) * s⌋).toNat ∧
      r.height = (⌊(b.height : ℚ) * s⌋).toNat) ∧
    (∀ r, fixedUpscale E b s m = .ok r →
      r.width = (⌊(b.width : ℚ) * s⌋).toNat ∧
      r.height = (⌊(b.height : ℚ) * s⌋).toNat) ∧
    (∀ r, origEnhance zeroExt { idSettings with scale_factor := 2 }
        (zeroBitmap 40 50 3) = .ok r → r.width = 100 ∧ r.height = 80) := by
  have hs0 : (0 : ℚ) ≤ s := le_trans zero_le_one h1
  refine ⟨?_, ?_, ?_⟩
  · intro r h
    unfold origUpscale at h
    obtain ⟨hw, hh⟩ := hcv _ _ _ _ _ h
    rw [hw, hh,
      pyInt_eq_floor_toNat _ (mul_nonneg (Nat.cast_nonneg _) hs0),
      pyInt_eq_floor_toNat _ (mul_nonneg (Nat.cast_nonneg _) hs0)]
    exact ⟨rfl, rfl⟩
  · intro r h
    unfold fixedUpscale at h
    obtain ⟨hw, hh⟩ := hpil _ _ _ _ _ h
    rw [hw, hh,
      pyInt_eq_floor_toNat _ (mul_nonneg (Nat.cast_nonneg _) hs0),
      pyInt_eq_floor_toNat _ (mul_nonneg (Nat.cast_nonneg _) hs0)]
    exact ⟨rfl, rfl⟩
  · intro r h
    rw [show origEnhance zeroExt { idSettings with scale_factor := 2 }
        (zeroBitmap 40 50 3) = .ok (zeroBitmap 80 100 3) from by decide] at h
    injection h with h
    subst h
    decide

/-- Witness for C3 at `s = 2` on a 5×4 bitmap with the concrete
contract-honouring externals: the resampled result is 10×8. -/
theorem C3_dimension_law_witness :
    (zeroBitmap 8 10 3).width = (⌊((zeroBitmap 4 5 3).width : ℚ) * 2⌋).toNat ∧
    (zeroBitmap 8 10 3).height =
      (⌊((zeroBitmap 4 5 3).height : ℚ) * 2⌋).toNat :=
  (C3_dimension_law zeroExt (zeroBitmap 4 5 3) 2 "Bicubic"
    zeroExt_cv2Resize_dims zeroExt_pilResize_dims (by norm_num)
    (by norm_num)).1 (zeroBitmap 8 10 3) (by decide)


/-- Counterexample to C4 as stated: in the heavy band the orig variant
passes the fixed strength arguments `10, 10, 7, 21` to the non-local-means
denoiser at level `0.7` and at level `0.95` alike (shown by externals that
record their arguments), although `level - 0.6` differs between the two
levels — the strength does not scale with `(level - 0.6)`. -/
theorem C4_counterexample :
    applyNoiseReductionOrig hRecExt (uniformBitmap 1 1 [1, 2, 3]) (7 / 10) =
      .ok ⟨[[[10, 10, 7, 21]]]⟩ ∧
    applyNoiseReductionOrig hRecExt (uniformBitmap 1 1 [1, 2, 3]) (95 / 100) =
      .ok ⟨[[[10, 10, 7, 21]]]⟩ ∧
    (7 / 10 : ℚ) - 6 / 10 ≠ (95 / 100 : ℚ) - 6 / 10 :=
  ⟨by decide, by decide, by decide⟩

/-- C4 amended: the caller skips the stage for `noise_reduction ≤ 0`; the
selector applies, for `level ∈ (0, 0.3]`, a Gaussian blur with
`sigma = level * 2`; for `level ∈ (0.3, 0.6]` a local filter with fixed
parameters independent of the level (bilateral `9, 75, 75` in the orig
variant, `SMOOTH_MORE` in the fixed variant); for `level ∈ (0.6, 1]` the
orig variant applies non-local means with the fixed strength arguments
`10, 10, 7, 21` / `10, 7, 21` (independent of the level), while the fixed
variant composes `SMOOTH_MORE` with a Gaussian blur of radius
`(level - 0.6) * 3`.  Band boundaries are inclusive above and exclusive
below. -/
theorem C4_denoise_dispatch (E : Externals) (b : Bitmap) (f : ℚ) :
    (0 < f → f ≤ 3 / 10 → applyNoiseReductionOrig E b f =
      (match E.scipyGaussian (toQImg b) (f * 2) with
       | .error e => .error e
       | .ok q => .ok (qImgToU8 q))) ∧
    (3 / 10 < f → f ≤ 6 / 10 →
      applyNoiseReductionOrig E b f = E.cv2Bilateral b 9 75 75) ∧
    (6 / 10 < f → applyNoiseReductionOrig E b f =
      (if b.channels = 3 then E.nlMeansColored b 10 10 7 21
       else E.nlMeansGray b 10 7 21)) ∧
    (0 < f → f ≤ 3 / 10 →
      applyNoiseReductionFixed E b f = E.pilGaussianBlur b (f * 2)) ∧
    (3 / 10 < f → f ≤ 6 / 10 →
      applyNoiseReductionFixed E b f = E.pilSmoothMore b) ∧
    (6 / 10 < f → applyNoiseReductionFixed E b f =
      (match E.pilSmoothMore b with
       | .error e => .error e
       | .ok sm => E.pilGaussianBlur sm ((f - 6 / 10) * 3))) ∧
    (∀ nr : ℚ, nr ≤ 0 →
      origEnhance E { idSettings with noise_reduction := nr } b = .ok b ∧
      fixedEnhance E { idSettings with noise_reduction := nr } b = .ok b) := by
  refine ⟨?_, ?_, ?_, ?_, ?_, ?_, ?_⟩
  · intro _ h2
    simp [applyNoiseReductionOrig, h2]
  · intro h1 h2
    simp [applyNoiseReductionOrig, not_le.mpr h1, h2]
  · intro h
    have h3 : ¬ f ≤ 3 / 10 := not_le.mpr (lt_trans (by norm_num) h)
    have h6 : ¬ f ≤ 6 / 10 := not_le.mpr h
    simp [applyNoiseReductionOrig, h3, h6]
  · intro _ h2
    simp [applyNoiseReductionFixed, h2]
  · intro h1 h2
    simp [applyNoiseReductionFixed, not_le.mpr h1, h2]
  · intro h
    have h3 : ¬ f ≤ 3 / 10 := not_le.mpr (lt_trans (by norm_num) h)
    have h6 : ¬ f ≤ 6 / 10 := not_le.mpr h
    simp [applyNoiseReductionFixed, h3, h6]
  · intro nr hnr
    constructor <;>
      simp [origEnhance, fixedEnhance, idSettings, not_lt.mpr hnr]

/-- Witness for C4's amended dispatch at the concrete level `1/2`
(medium band) for both variants. -/
theorem C4_denoise_dispatch_witness :
    applyNoiseReductionOrig zeroExt (uniformBitmap 1 1 [0]) (1 / 2) =
      zeroExt.cv2Bilateral (uniformBitmap 1 1 [0]) 9 75 75 ∧
    applyNoiseReductionFixed zeroExt (uniformBitmap 1 1 [0]) (1 / 2) =
      zeroExt.pilSmoothMore (uniformBitmap 1 1 [0]) :=
  ⟨(C4_denoise_dispatch zeroExt _ _).2.1 (by norm_num) (by norm_num),
   (C4_denoise_dispatch zeroExt _ _).2.2.2.2.1 (by norm_num) (by norm_num)⟩

/-- Counterexample to C7 as stated: with the heavy-band denoiser
unavailable, the whole pipeline run fails with the propagated error — no
Gaussian-blur substitute is produced, no warning is attached, the run does
not succeed. -/
theorem C7_counterexample :
    origEnhance failExt { idSettings with noise_reduction := 4 / 5 }
      (uniformBitmap 2 2 [5, 5, 5]) = .error "nlm" := by decide

/-- C7 amended: the repository contains no fallback and no
`DenoiseFallbackWarning`: for any level in the heavy band, a failure of the
non-local-means call propagates out of `apply_noise_reduction` and out of
`enhance_image` unchanged, failing the run. -/
theorem C7_no_fallback (b : Bitmap) (f : ℚ) (h : 6 / 10 < f) :
    applyNoiseReductionOrig failExt b f = .error "nlm" ∧
    origEnhance failExt { idSettings with noise_reduction := f } b =
      .error "nlm" := by
  have h3 : ¬ f ≤ 3 / 10 := not_le.mpr (lt_trans (by norm_num) h)
  have h6 : ¬ f ≤ 6 / 10 := not_le.mpr h
  have h0 : (0 : ℚ) < f := lt_trans (by norm_num) h
  have hstage : applyNoiseReductionOrig failExt b f = .error "nlm" := by
    by_cases hc : b.channels = 3 <;>
      simp [applyNoiseReductionOrig, h3, h6, hc, failExt, zeroExt]
  refine ⟨hstage, ?_⟩
  simp [origEnhance, idSettings, h0, hstage]

/-- Witness for C7's amended theorem at the concrete level `0.7`. -/
theorem C7_no_fallback_witness :
    applyNoiseReductionOrig failExt (uniformBitmap 1 1 [0]) (7 / 10) =
      .error "nlm" ∧
    origEnhance failExt { idSettings with noise_reduction := 7 / 10 }
      (uniformBitmap 1 1 [0]) = .error "nlm" :=
  C7_no_fallback _ _ (by norm_num)

/-- Counterexample to C5 as stated: on a 1×1 uniform RGB bitmap of value
100 with contrast factor 2, the code's contrast stage (PIL
`ImageEnhance.Contrast`, which pivots on the image's rounded mean luma,
here 100) returns the image unchanged, whereas the claimed fixed-128-pivot
formula would give `clip(128 + (100 - 128) * 2) = 72 ≠ 100`. -/
theorem C5_counterexample :
    pilContrast (uniformBitmap 1 1 [100, 100, 100]) 2 =
      uniformBitmap 1 1 [100, 100, 100] ∧
    specContrastVal 100 2 = 72 ∧ (72 : ℕ) ≠ 100 :=
  ⟨by decide, by decide, by decide⟩

/-- `Image.blend(d, img, f)` is the identity on a sample equal to its
degenerate counterpart. -/
theorem blendVal_self (a f : ℚ) : blendVal a a f = clipTrunc a := by
  unfold blendVal
  rw [sub_self, mul_zero, add_zero]

/-- Clamp-truncation is the identity on in-range integer samples. -/
theorem clipTrunc_natCast (v : ℕ) (h : v ≤ 255) : clipTrunc (v : ℚ) = v := by
  unfold clipTrunc
  split_ifs with h1 h2
  · have hv0 : (v : ℚ) = 0 := le_antisymm h1 (Nat.cast_nonneg v)
    exact_mod_cast hv0.symm
  · have : (255 : ℕ) ≤ v := by exact_mod_cast h2
    omega
  · simp [Int.floor_natCast]

/-- C5 amended: the contrast stage pivots on the image's own rounded mean
luma (PIL `ImageEnhance.Contrast`), `out = clip(m + (in - m) * factor)`
with `m = int(mean_luma + 0.5)` — not on the fixed gray 128.  On any
uniform bitmap the pivot equals the pixel value, so the stage is the
identity for every factor; in particular the 10×10 uniform mid-gray
(128,128,128) scenario with `contrast = 2` returns the input unchanged
through the full pipeline in both variants. -/
theorem C5_contrast_pivot :
    (∀ (v : ℕ) (f : ℚ), v ≤ 255 →
      pilContrast (uniformBitmap 10 10 [v, v, v]) f =
        uniformBitmap 10 10 [v, v, v]) ∧
    (∀ E : Externals,
      origEnhance E { idSettings with contrast := 2 }
        (uniformBitmap 10 10 [128, 128, 128]) =
        .ok (uniformBitmap 10 10 [128, 128, 128]) ∧
      fixedEnhance E { idSettings with contrast := 2 }
        (uniformBitmap 10 10 [128, 128, 128]) =
        .ok (uniformBitmap 10 10 [128, 128, 128])) := by
  have huniform : ∀ (v : ℕ) (f : ℚ), v ≤ 255 →
      pilContrast (uniformBitmap 10 10 [v, v, v]) f =
        uniformBitmap 10 10 [v, v, v] := by
    intro v f hv
    have hluma : pxLuma [v, v, v] = v := by
      show (v * 19595 + v * 38470 + v * 7471 + 32768) / 65536 = v
      omega
    have hflat : (uniformBitmap 10 10 ([v, v, v] : Pixel)).rows.flatten =
        List.replicate 100 ([v, v, v] : Pixel) := by
      show (List.replicate 10 (List.replicate 10 ([v, v, v] : Pixel))).flatten
        = _
      rw [List.flatten_replicate_replicate]
    have hmean : lumaMean (uniformBitmap 10 10 [v, v, v]) = v := by
      unfold lumaMean
      rw [hflat]
      simp only [List.map_replicate, hluma, List.sum_replicate,
        List.length_replicate, nsmul_eq_mul]
      exact mul_div_cancel_left₀ _ (by norm_num)
    have hpivot : contrastPivot (uniformBitmap 10 10 [v, v, v]) = v := by
      unfold contrastPivot
      rw [hmean]
      have hfl : ⌊(v : ℚ) + 1 / 2⌋ = (v : ℤ) := by
        rw [Int.floor_eq_iff]
        constructor
        · push_cast
          linarith
        · push_cast
          linarith
      rw [hfl]
      simp
    show mapSamples (uniformBitmap 10 10 [v, v, v])
        (fun _ x => blendVal
          ((contrastPivot (uniformBitmap 10 10 [v, v, v]) : ℕ) : ℚ)
          (x : ℚ) f) =
      uniformBitmap 10 10 [v, v, v]
    rw [hpivot]
    unfold mapSamples uniformBitmap
    simp only [List.map_replicate]
    have hpx : List.map (fun (x : ℕ) => blendVal (v : ℚ) (x : ℚ) f)
        [v, v, v] = [v, v, v] := by
      simp only [List.map_cons, List.map_nil, blendVal_self,
        clipTrunc_natCast v hv]
    rw [hpx]
  refine ⟨huniform, ?_⟩
  intro E
  have h128 := huniform 128 2 (by norm_num)
  have h21 : ((2 : ℚ) ≠ 1) := by norm_num
  constructor <;>
    simp [origEnhance, fixedEnhance, idSettings, h21, h128]

/-- Witness for C5's amended theorem at the concrete uniform value 37 and
factor 3/2. -/
theorem C5_contrast_pivot_witness :
    pilContrast (uniformBitmap 10 10 [37, 37, 37]) (3 / 2) =
      uniformBitmap 10 10 [37, 37, 37] :=
  C5_contrast_pivot.1 37 (3 / 2) (by norm_num)

/-- Counterexample to C6 as stated: in `fixed_image_enhance.py` the
sharpening stage is guarded by `sharpness != 1.0`, not `sharpness > 1.0`,
and uses PIL's `Sharpness` enhancer (blend toward a `SMOOTH`-filtered
copy).  With `sharpness = 0.5` on a 3×3 grayscale bitmap whose centre is
130, the pipeline returns centre
`blend(smooth = 650/13 = 50, in = 130, 0.5) = 90 ≠ 130`: the bitmap does
not pass through unchanged, and sharpness below 1.0 does soften the
image. -/
theorem C6_counterexample :
    fixedEnhance zeroExt { idSettings with sharpness := 1 / 2 }
      ⟨[[[0], [0], [0]], [[0], [130], [0]], [[0], [0], [0]]]⟩ =
      .ok ⟨[[[0], [0], [0]], [[0], [90], [0]], [[0], [0], [0]]]⟩ ∧
    (⟨[[[0], [0], [0]], [[0], [90], [0]], [[0], [0], [0]]]⟩ : Bitmap) ≠
      ⟨[[[0], [0], [0]], [[0], [130], [0]], [[0], [0], [0]]]⟩ :=
  ⟨by decide, by decide⟩

/-- C6 amended: in `image_enhance.py` the claim holds — the stage runs
only for `sharpness > 1.0`, in which case the pipeline output is exactly
`apply_sharpening` (unsharp masking: a sigma-1.0 Gaussian-blurred copy,
unclamped float detail, `out = clip(in + (s - 1) * (in - blurred))`), and
any `sharpness ≤ 1.0` passes the bitmap through byte-identical; in
`fixed_image_enhance.py`, however, the stage runs whenever
`sharpness ≠ 1.0` via PIL's `Sharpness` enhancer, so a factor of 0.5
changes (softens) the bitmap (centre 26 becomes
`blend(smooth = 10, in = 26, 0.5) = 18`). -/
theorem C6_sharpening (E : Externals) (b : Bitmap) (s : ℚ) :
    (s ≤ 1 → origEnhance E { idSettings with sharpness := s } b = .ok b) ∧
    (1 < s → origEnhance E { idSettings with sharpness := s } b =
      applySharpening E b s) ∧
    (fixedEnhance zeroExt { idSettings with sharpness := 1 / 2 }
        ⟨[[[0], [0], [0]], [[0], [26], [0]], [[0], [0], [0]]]⟩ =
      .ok ⟨[[[0], [0], [0]], [[0], [18], [0]], [[0], [0], [0]]]⟩ ∧
    (⟨[[[0], [0], [0]], [[0], [18], [0]], [[0], [0], [0]]]⟩ : Bitmap) ≠
      ⟨[[[0], [0], [0]], [[0], [26], [0]], [[0], [0], [0]]]⟩) := by
  refine ⟨?_, ?_, by decide, by decide⟩
  · intro hs
    have hns : ¬ (1 : ℚ) < s := not_lt.mpr hs
    simp [origEnhance, idSettings, hns]
  · intro hs
    simp only [origEnhance, idSettings]
    norm_num
    cases h : applySharpening E b s with
    | error e => simp [hs, h]
    | ok i5 => simp [hs, h]

/-- Witness for C6's amended theorem at `s = 1/2` (pass-through) and
`s = 2` (stage applied) on a concrete bitmap. -/
theorem C6_sharpening_witness :
    origEnhance zeroExt { idSettings with sharpness := 1 / 2 }
      (uniformBitmap 2 2 [3]) = .ok (uniformBitmap 2 2 [3]) ∧
    origEnhance zeroExt { idSettings with sharpness := 2 }
      (uniformBitmap 2 2 [3]) =
      applySharpening zeroExt (uniformBitmap 2 2 [3]) 2 :=
  ⟨(C6_sharpening zeroExt (uniformBitmap 2 2 [3]) (1 / 2)).1 (by norm_num),
   (C6_sharpening zeroExt (uniformBitmap 2 2 [3]) 2).2.1 (by norm_num)⟩

end

